import Mathlib

/-
Verification of a single-user banking ledger engine.

The program keeps accounts with an append-only transaction history,
mutates balances only through deposit and withdraw, applies interest by a
per-account-kind policy, wraps mutations in reversible commands kept on a
LIFO undo stack, and persists the ledger to a flat snapshot.

Amounts and balances are modelled as rationals (the spec's "decimal");
timestamps as natural numbers passed in explicitly (the program reads the
wall clock at each mutation); the mutable objects of the program become
explicit state passing of immutable values.
-/

/-- A committed ledger entry: kind string ("DEPOSIT" or "WITHDRAWAL"),
amount, and creation instant. -/
structure Transaction where
  type : String
  amount : ℚ
  timestamp : Nat
deriving DecidableEq, Repr

/-- Account state: identifier, owner, kind string, balance, and the
append-only history.  The interest policy of the program is derived from
the stored kind string, so it is not a separate field here. -/
structure Account where
  account_id : String
  owner : String
  account_type : String
  balance : ℚ
  transaction_history : List Transaction
deriving DecidableEq, Repr

/-- Savings policy: two percent of the balance. -/
def SavingsInterest.calculate_interest (balance : ℚ) : ℚ :=
  balance * (2 / 100)

/-- Checking policy: one tenth of a percent of the balance. -/
def CheckingInterest.calculate_interest (balance : ℚ) : ℚ :=
  balance * (1 / 1000)

/-- Loan policy: five percent of the balance. -/
def LoanInterest.calculate_interest (balance : ℚ) : ℚ :=
  balance * (5 / 100)

/-- Character-wise lower-casing of a string (the kind strings compared
against are ASCII). -/
def lower (s : String) : String :=
  ⟨s.data.map Char.toLower⟩

/-- Policy selection by lower-cased account kind, defaulting to the
savings policy for unknown kinds. -/
def interest_strategy (account_type : String) : ℚ → ℚ :=
  let t := lower account_type
  if t = "savings" then SavingsInterest.calculate_interest
  else if t = "checking" then CheckingInterest.calculate_interest
  else if t = "loan" then LoanInterest.calculate_interest
  else SavingsInterest.calculate_interest

/-- The accrual the account's policy computes on a balance. -/
def calculate_interest (account_type : String) (balance : ℚ) : ℚ :=
  interest_strategy account_type balance

/-- Deposit: rejects a non-positive amount with no state change;
otherwise adds the amount to the balance and appends one DEPOSIT entry. -/
def Account.deposit (a : Account) (amount : ℚ) (now : Nat) : Bool × Account :=
  if amount ≤ 0 then (false, a)
  else
    (true,
      { a with
          balance := a.balance + amount
          transaction_history :=
            a.transaction_history ++ [⟨"DEPOSIT", amount, now⟩] })

/-- Withdraw: rejects a non-positive amount or one exceeding the balance
with no state change; otherwise subtracts the amount and appends one
WITHDRAWAL entry. -/
def Account.withdraw (a : Account) (amount : ℚ) (now : Nat) : Bool × Account :=
  if amount ≤ 0 ∨ a.balance < amount then (false, a)
  else
    (true,
      { a with
          balance := a.balance - amount
          transaction_history :=
            a.transaction_history ++ [⟨"WITHDRAWAL", amount, now⟩] })

/-- Interest application: computes the policy accrual on the current
balance, deposits it when it is nonzero (ignoring the deposit's result),
and returns the accrual. -/
def Account.apply_interest (a : Account) (now : Nat) : ℚ × Account :=
  let interest := calculate_interest a.account_type a.balance
  if interest ≠ 0 then (interest, (a.deposit interest now).2)
  else (interest, a)

lemma deposit_nonpos {a : Account} {amount : ℚ} (now : Nat)
    (h : amount ≤ 0) : a.deposit amount now = (false, a) := by
  simp [Account.deposit, h]

lemma deposit_pos {a : Account} {amount : ℚ} (now : Nat)
    (h : 0 < amount) :
    a.deposit amount now =
      (true,
        { a with
            balance := a.balance + amount
            transaction_history :=
              a.transaction_history ++ [⟨"DEPOSIT", amount, now⟩] }) := by
  simp [Account.deposit, not_le.mpr h]

lemma withdraw_fail {a : Account} {amount : ℚ} (now : Nat)
    (h : amount ≤ 0 ∨ a.balance < amount) :
    a.withdraw amount now = (false, a) := by
  simp only [Account.withdraw, if_pos h]

lemma withdraw_ok {a : Account} {amount : ℚ} (now : Nat)
    (h1 : 0 < amount) (h2 : amount ≤ a.balance) :
    a.withdraw amount now =
      (true,
        { a with
            balance := a.balance - amount
            transaction_history :=
              a.transaction_history ++ [⟨"WITHDRAWAL", amount, now⟩] }) := by
  have h : ¬ (amount ≤ 0 ∨ a.balance < amount) := by
    push_neg
    exact ⟨h1, h2⟩
  simp only [Account.withdraw, if_neg h]

lemma deposit_fst_iff {a : Account} {amount : ℚ} {now : Nat} :
    (a.deposit amount now).1 = true ↔ 0 < amount := by
  by_cases h : amount ≤ 0
  · simp [deposit_nonpos now h, not_lt.mpr h]
  · simp [deposit_pos now (not_le.mp h), not_le.mp h]

lemma withdraw_fst_iff {a : Account} {amount : ℚ} {now : Nat} :
    (a.withdraw amount now).1 = true ↔ 0 < amount ∧ amount ≤ a.balance := by
  by_cases h : amount ≤ 0 ∨ a.balance < amount
  · simp only [withdraw_fail now h]
    constructor
    · intro hc
      exact absurd hc (by simp)
    · intro hc
      rcases h with h | h
      · exact absurd hc.1 (not_lt.mpr h)
      · exact absurd hc.2 (not_le.mpr h)
  · push_neg at h
    simp [withdraw_ok now h.1 h.2, h.1, h.2]

/-- C2: deposit fails with no state change exactly when the amount is
non-positive; for a positive amount it succeeds, adds the amount to the
balance, and appends exactly one DEPOSIT transaction of that amount. -/
theorem deposit_spec (a : Account) (amount : ℚ) (now : Nat) :
    (amount ≤ 0 → a.deposit amount now = (false, a)) ∧
    (0 < amount → a.deposit amount now =
      (true,
        { a with
            balance := a.balance + amount
            transaction_history :=
              a.transaction_history ++ [⟨"DEPOSIT", amount, now⟩] })) := by
  exact ⟨fun h => deposit_nonpos now h, fun h => deposit_pos now h⟩

theorem deposit_spec_witness :
    (Account.deposit ⟨"A1", "Alice", "savings", 10, []⟩ 5 0 =
      (true, ⟨"A1", "Alice", "savings", 15, [⟨"DEPOSIT", 5, 0⟩]⟩)) ∧
    (Account.deposit ⟨"A1", "Alice", "savings", 10, []⟩ (-3) 0 =
      (false, ⟨"A1", "Alice", "savings", 10, []⟩)) := by
  have h1 := (deposit_spec ⟨"A1", "Alice", "savings", 10, []⟩ 5 0).2 (by norm_num)
  have h2 := (deposit_spec ⟨"A1", "Alice", "savings", 10, []⟩ (-3) 0).1 (by norm_num)
  refine ⟨?_, h2⟩
  rw [h1]
  norm_num

/-- C3: withdraw fails with no state change exactly when the amount is
non-positive or exceeds the balance; otherwise it succeeds, subtracts the
amount, and appends exactly one WITHDRAWAL transaction of that amount. -/
theorem withdraw_spec (a : Account) (amount : ℚ) (now : Nat) :
    ((amount ≤ 0 ∨ a.balance < amount) → a.withdraw amount now = (false, a)) ∧
    (0 < amount → amount ≤ a.balance → a.withdraw amount now =
      (true,
        { a with
            balance := a.balance - amount
            transaction_history :=
              a.transaction_history ++ [⟨"WITHDRAWAL", amount, now⟩] })) := by
  exact ⟨fun h => withdraw_fail now h, fun h1 h2 => withdraw_ok now h1 h2⟩

theorem withdraw_spec_witness :
    (Account.withdraw ⟨"A1", "Alice", "savings", 10, []⟩ 4 0 =
      (true, ⟨"A1", "Alice", "savings", 6, [⟨"WITHDRAWAL", 4, 0⟩]⟩)) ∧
    (Account.withdraw ⟨"A1", "Alice", "savings", 10, []⟩ 11 0 =
      (false, ⟨"A1", "Alice", "savings", 10, []⟩)) := by
  have h1 := (withdraw_spec ⟨"A1", "Alice", "savings", 10, []⟩ 4 0).2
    (by norm_num) (by norm_num)
  have h2 := (withdraw_spec ⟨"A1", "Alice", "savings", 10, []⟩ 11 0).1
    (by norm_num)
  refine ⟨?_, h2⟩
  rw [h1]
  norm_num

/-- Deposit command: execute deposits the amount into the account. -/
def DepositCommand.execute (account : Account) (amount : ℚ) (now : Nat) :
    Bool × Account :=
  account.deposit amount now

/-- Deposit command: undo withdraws the amount back out. -/
def DepositCommand.undo (account : Account) (amount : ℚ) (now : Nat) :
    Bool × Account :=
  account.withdraw amount now

/-- Withdraw command: execute withdraws the amount. -/
def WithdrawCommand.execute (account : Account) (amount : ℚ) (now : Nat) :
    Bool × Account :=
  account.withdraw amount now

/-- Withdraw command: undo deposits the amount back in. -/
def WithdrawCommand.undo (account : Account) (amount : ℚ) (now : Nat) :
    Bool × Account :=
  account.deposit amount now

/-- Transfer command: execute withdraws from the source and, only when
that succeeds, deposits into the destination. -/
def TransferCommand.execute (from_acct to_acct : Account) (amount : ℚ)
    (now : Nat) : Bool × Account × Account :=
  match from_acct.withdraw amount now with
  | (true, f) =>
    match to_acct.deposit amount now with
    | (ok, t) => (ok, f, t)
  | (false, _) => (false, from_acct, to_acct)

/-- Transfer command: undo withdraws from the destination and, only when
that succeeds, deposits back into the source. -/
def TransferCommand.undo (from_acct to_acct : Account) (amount : ℚ)
    (now : Nat) : Bool × Account × Account :=
  match to_acct.withdraw amount now with
  | (true, t) =>
    match from_acct.deposit amount now with
    | (ok, f) => (ok, f, t)
  | (false, _) => (false, from_acct, to_acct)

lemma transfer_execute_ok {from_acct to_acct : Account} {x : ℚ} (now : Nat)
    (h1 : 0 < x) (h2 : x ≤ from_acct.balance) :
    TransferCommand.execute from_acct to_acct x now =
      (true,
        { from_acct with
            balance := from_acct.balance - x
            transaction_history :=
              from_acct.transaction_history ++ [⟨"WITHDRAWAL", x, now⟩] },
        { to_acct with
            balance := to_acct.balance + x
            transaction_history :=
              to_acct.transaction_history ++ [⟨"DEPOSIT", x, now⟩] }) := by
  simp only [TransferCommand.execute, withdraw_ok now h1 h2,
    deposit_pos now h1]

lemma transfer_execute_bad {from_acct to_acct : Account} {x : ℚ} (now : Nat)
    (h : x ≤ 0 ∨ from_acct.balance < x) :
    TransferCommand.execute from_acct to_acct x now =
      (false, from_acct, to_acct) := by
  simp only [TransferCommand.execute, withdraw_fail now h]

lemma transfer_undo_ok {from_acct to_acct : Account} {x : ℚ} (now : Nat)
    (h1 : 0 < x) (h2 : x ≤ to_acct.balance) :
    TransferCommand.undo from_acct to_acct x now =
      (true,
        { from_acct with
            balance := from_acct.balance + x
            transaction_history :=
              from_acct.transaction_history ++ [⟨"DEPOSIT", x, now⟩] },
        { to_acct with
            balance := to_acct.balance - x
            transaction_history :=
              to_acct.transaction_history ++ [⟨"WITHDRAWAL", x, now⟩] }) := by
  simp only [TransferCommand.undo, withdraw_ok now h1 h2, deposit_pos now h1]

lemma transfer_undo_bad {from_acct to_acct : Account} {x : ℚ} (now : Nat)
    (h : x ≤ 0 ∨ to_acct.balance < x) :
    TransferCommand.undo from_acct to_acct x now =
      (false, from_acct, to_acct) := by
  simp only [TransferCommand.undo, withdraw_fail now h]

lemma withdraw_cond_of_not {a : Account} {x : ℚ}
    (h : ¬ (0 < x ∧ x ≤ a.balance)) : x ≤ 0 ∨ a.balance < x := by
  rcases not_and_or.mp h with h | h
  · exact Or.inl (not_lt.mp h)
  · exact Or.inr (not_le.mp h)

lemma transfer_execute_fst (from_acct to_acct : Account) (x : ℚ) (now : Nat) :
    (TransferCommand.execute from_acct to_acct x now).1 =
      (from_acct.withdraw x now).1 := by
  by_cases hc : 0 < x ∧ x ≤ from_acct.balance
  · rw [transfer_execute_ok now hc.1 hc.2, withdraw_ok now hc.1 hc.2]
  · have h := withdraw_cond_of_not hc
    rw [transfer_execute_bad now h, withdraw_fail now h]

/-- C4: a successful transfer of x between distinct accounts decreases the
source balance by x, increases the destination balance by x, and appends
exactly one WITHDRAWAL of x on the source and one DEPOSIT of x on the
destination; when the withdrawal leg fails the deposit leg is not
attempted and execute returns failure with both accounts unchanged. -/
theorem transfer_execute_spec (from_acct to_acct : Account) (x : ℚ)
    (now : Nat) :
    (∀ f t, TransferCommand.execute from_acct to_acct x now = (true, f, t) →
      f.balance = from_acct.balance - x ∧
      t.balance = to_acct.balance + x ∧
      f.transaction_history =
        from_acct.transaction_history ++ [⟨"WITHDRAWAL", x, now⟩] ∧
      t.transaction_history =
        to_acct.transaction_history ++ [⟨"DEPOSIT", x, now⟩]) ∧
    ((from_acct.withdraw x now).1 = false →
      TransferCommand.execute from_acct to_acct x now =
        (false, from_acct, to_acct)) := by
  constructor
  · intro f t heq
    by_cases hc : 0 < x ∧ x ≤ from_acct.balance
    · rw [transfer_execute_ok now hc.1 hc.2] at heq
      simp only [Prod.mk.injEq] at heq
      obtain ⟨-, hf, ht⟩ := heq
      subst hf
      subst ht
      simp
    · rw [transfer_execute_bad now (withdraw_cond_of_not hc)] at heq
      simp at heq
  · intro h
    have hc : ¬ (0 < x ∧ x ≤ from_acct.balance) := by
      intro hc
      rw [withdraw_fst_iff.mpr hc] at h
      exact absurd h (by simp)
    exact transfer_execute_bad now (withdraw_cond_of_not hc)

/-- Sample source account used to exercise the theorems. -/
def accA : Account := ⟨"A1", "Alice", "savings", 10, []⟩

/-- Sample destination account used to exercise the theorems. -/
def accB : Account := ⟨"B1", "Bob", "checking", 5, []⟩

/-- Source account after a transfer of 4 out of it. -/
def accA2 : Account := ⟨"A1", "Alice", "savings", 6, [⟨"WITHDRAWAL", 4, 0⟩]⟩

/-- Destination account after a transfer of 4 into it. -/
def accB2 : Account := ⟨"B1", "Bob", "checking", 9, [⟨"DEPOSIT", 4, 0⟩]⟩

theorem transfer_execute_spec_witness :
    (accA2.balance = accA.balance - 4 ∧
     accB2.balance = accB.balance + 4 ∧
     accA2.transaction_history =
       accA.transaction_history ++ [⟨"WITHDRAWAL", 4, 0⟩] ∧
     accB2.transaction_history =
       accB.transaction_history ++ [⟨"DEPOSIT", 4, 0⟩]) ∧
    TransferCommand.execute accA accB 20 0 = (false, accA, accB) := by
  constructor
  · refine (transfer_execute_spec accA accB 4 0).1 accA2 accB2 ?_
    rw [transfer_execute_ok 0 (by norm_num) (by norm_num [accA])]
    norm_num [accA, accB, accA2, accB2]
  · refine (transfer_execute_spec accA accB 20 0).2 ?_
    rw [withdraw_fail 0 (by norm_num [accA])]

/-- C10: whenever the first-leg withdrawal of a transfer succeeds the
second-leg deposit also succeeds; execute returns true exactly when the
first-leg withdrawal succeeds; and whenever execute or undo returns
failure both accounts are left exactly as they were, so neither can
terminate with money withdrawn from one account but not deposited into
the other. -/
theorem transfer_no_partial_state (from_acct to_acct : Account) (x : ℚ)
    (now : Nat) :
    ((from_acct.withdraw x now).1 = true → (to_acct.deposit x now).1 = true) ∧
    ((TransferCommand.execute from_acct to_acct x now).1 =
      (from_acct.withdraw x now).1) ∧
    ((TransferCommand.execute from_acct to_acct x now).1 = false →
      TransferCommand.execute from_acct to_acct x now =
        (false, from_acct, to_acct)) ∧
    ((to_acct.withdraw x now).1 = true → (from_acct.deposit x now).1 = true) ∧
    ((TransferCommand.undo from_acct to_acct x now).1 = false →
      TransferCommand.undo from_acct to_acct x now =
        (false, from_acct, to_acct)) := by
  refine ⟨?_, transfer_execute_fst from_acct to_acct x now, ?_, ?_, ?_⟩
  · intro h
    exact deposit_fst_iff.mpr (withdraw_fst_iff.mp h).1
  · intro h
    rw [transfer_execute_fst] at h
    have hc : ¬ (0 < x ∧ x ≤ from_acct.balance) := by
      intro hc
      rw [withdraw_fst_iff.mpr hc] at h
      exact absurd h (by simp)
    exact transfer_execute_bad now (withdraw_cond_of_not hc)
  · intro h
    exact deposit_fst_iff.mpr (withdraw_fst_iff.mp h).1
  · intro h
    by_cases hc : 0 < x ∧ x ≤ to_acct.balance
    · rw [transfer_undo_ok now hc.1 hc.2] at h
      exact absurd h (by simp)
    · exact transfer_undo_bad now (withdraw_cond_of_not hc)

theorem transfer_no_partial_state_witness :
    (Account.deposit accB 4 0).1 = true ∧
    TransferCommand.undo accA accB 20 0 = (false, accA, accB) := by
  constructor
  · exact (transfer_no_partial_state accA accB 4 0).1 (by decide)
  · exact (transfer_no_partial_state accA accB 20 0).2.2.2.2 (by decide)

/-- C1: for each command kind, a successful execute followed immediately
by undo restores every affected balance to its pre-execute value and
removes nothing from the histories: each affected history becomes the
original history plus the entry appended by execute plus the compensating
entry appended by undo (stated over account states satisfying the data
model's balance non-negativity invariant). -/
theorem execute_undo_roundtrip :
    (∀ (a : Account) (x : ℚ) (now now' : Nat), 0 ≤ a.balance →
      (DepositCommand.execute a x now).1 = true →
      (DepositCommand.undo (DepositCommand.execute a x now).2 x now').1 =
        true ∧
      (DepositCommand.undo (DepositCommand.execute a x now).2 x
        now').2.balance = a.balance ∧
      (DepositCommand.undo (DepositCommand.execute a x now).2 x
        now').2.transaction_history =
        a.transaction_history ++
          [⟨"DEPOSIT", x, now⟩, ⟨"WITHDRAWAL", x, now'⟩]) ∧
    (∀ (a : Account) (x : ℚ) (now now' : Nat),
      (WithdrawCommand.execute a x now).1 = true →
      (WithdrawCommand.undo (WithdrawCommand.execute a x now).2 x now').1 =
        true ∧
      (WithdrawCommand.undo (WithdrawCommand.execute a x now).2 x
        now').2.balance = a.balance ∧
      (WithdrawCommand.undo (WithdrawCommand.execute a x now).2 x
        now').2.transaction_history =
        a.transaction_history ++
          [⟨"WITHDRAWAL", x, now⟩, ⟨"DEPOSIT", x, now'⟩]) ∧
    (∀ (f t : Account) (x : ℚ) (now now' : Nat), 0 ≤ t.balance →
      (TransferCommand.execute f t x now).1 = true →
      (TransferCommand.undo (TransferCommand.execute f t x now).2.1
        (TransferCommand.execute f t x now).2.2 x now').1 = true ∧
      (TransferCommand.undo (TransferCommand.execute f t x now).2.1
        (TransferCommand.execute f t x now).2.2 x now').2.1.balance =
        f.balance ∧
      (TransferCommand.undo (TransferCommand.execute f t x now).2.1
        (TransferCommand.execute f t x now).2.2 x now').2.2.balance =
        t.balance ∧
      (TransferCommand.undo (TransferCommand.execute f t x now).2.1
        (TransferCommand.execute f t x now).2.2 x
        now').2.1.transaction_history =
        f.transaction_history ++
          [⟨"WITHDRAWAL", x, now⟩, ⟨"DEPOSIT", x, now'⟩] ∧
      (TransferCommand.undo (TransferCommand.execute f t x now).2.1
        (TransferCommand.execute f t x now).2.2 x
        now').2.2.transaction_history =
        t.transaction_history ++
          [⟨"DEPOSIT", x, now⟩, ⟨"WITHDRAWAL", x, now'⟩]) := by
  refine ⟨?_, ?_, ?_⟩
  · intro a x now now' hb hx
    simp only [DepositCommand.execute] at hx ⊢
    have hpos : 0 < x := deposit_fst_iff.mp hx
    simp only [DepositCommand.undo, deposit_pos now hpos]
    rw [withdraw_ok now' hpos (by simpa using hb)]
    refine ⟨rfl, by simp, by simp⟩
  · intro a x now now' hx
    simp only [WithdrawCommand.execute] at hx ⊢
    have hc := withdraw_fst_iff.mp hx
    simp only [WithdrawCommand.undo, withdraw_ok now hc.1 hc.2]
    rw [deposit_pos now' hc.1]
    refine ⟨rfl, by simp, by simp⟩
  · intro f t x now now' hb hx
    rw [transfer_execute_fst] at hx
    have hc := withdraw_fst_iff.mp hx
    simp only [transfer_execute_ok now hc.1 hc.2]
    rw [transfer_undo_ok now' hc.1 (by simpa using hb)]
    refine ⟨rfl, by simp, by simp, by simp, by simp⟩

theorem execute_undo_roundtrip_witness :
    (TransferCommand.undo (TransferCommand.execute accA accB 4 0).2.1
      (TransferCommand.execute accA accB 4 0).2.2 4 1).1 = true ∧
    (TransferCommand.undo (TransferCommand.execute accA accB 4 0).2.1
      (TransferCommand.execute accA accB 4 0).2.2 4 1).2.1.balance =
      accA.balance ∧
    (TransferCommand.undo (TransferCommand.execute accA accB 4 0).2.1
      (TransferCommand.execute accA accB 4 0).2.2 4 1).2.2.balance =
      accB.balance ∧
    (TransferCommand.undo (TransferCommand.execute accA accB 4 0).2.1
      (TransferCommand.execute accA accB 4 0).2.2 4
      1).2.1.transaction_history =
      accA.transaction_history ++ [⟨"WITHDRAWAL", 4, 0⟩, ⟨"DEPOSIT", 4, 1⟩] ∧
    (TransferCommand.undo (TransferCommand.execute accA accB 4 0).2.1
      (TransferCommand.execute accA accB 4 0).2.2 4
      1).2.2.transaction_history =
      accB.transaction_history ++ [⟨"DEPOSIT", 4, 0⟩, ⟨"WITHDRAWAL", 4, 1⟩] := by
  refine execute_undo_roundtrip.2.2 accA accB 4 0 1 ?_ ?_
  · norm_num [accB]
  · rw [transfer_execute_fst, withdraw_fst_iff]
    norm_num [accA]

lemma interest_nonneg (t : String) {b : ℚ} (hb : 0 ≤ b) :
    0 ≤ calculate_interest t b := by
  simp only [calculate_interest, interest_strategy,
    SavingsInterest.calculate_interest, CheckingInterest.calculate_interest,
    LoanInterest.calculate_interest]
  split_ifs <;> exact mul_nonneg hb (by norm_num)

/-- C7: on an account with non-negative balance, deposit, withdraw and
apply_interest all leave the balance non-negative, and the policy accrual
itself is non-negative (this holds for every kind string, hence for the
three current policies and the savings default). -/
theorem balance_nonneg_invariant (a : Account) (amount : ℚ) (now : Nat) :
    0 ≤ a.balance →
    0 ≤ (a.deposit amount now).2.balance ∧
    0 ≤ (a.withdraw amount now).2.balance ∧
    0 ≤ (a.apply_interest now).2.balance ∧
    0 ≤ calculate_interest a.account_type a.balance := by
  intro hb
  have hi : 0 ≤ calculate_interest a.account_type a.balance :=
    interest_nonneg _ hb
  refine ⟨?_, ?_, ?_, hi⟩
  · by_cases h : amount ≤ 0
    · rw [deposit_nonpos now h]
      exact hb
    · rw [deposit_pos now (not_le.mp h)]
      exact add_nonneg hb (not_le.mp h).le
  · by_cases h : amount ≤ 0 ∨ a.balance < amount
    · rw [withdraw_fail now h]
      exact hb
    · push_neg at h
      rw [withdraw_ok now h.1 h.2]
      exact sub_nonneg.mpr h.2
  · simp only [Account.apply_interest]
    split_ifs with h
    · have hpos : 0 < calculate_interest a.account_type a.balance :=
        lt_of_le_of_ne hi (Ne.symm h)
      rw [deposit_pos now hpos]
      exact add_nonneg hb hpos.le
    · exact hb

theorem balance_nonneg_invariant_witness :
    0 ≤ (accA.deposit 5 0).2.balance ∧
    0 ≤ (accA.withdraw 5 0).2.balance ∧
    0 ≤ (accA.apply_interest 0).2.balance ∧
    0 ≤ calculate_interest accA.account_type accA.balance :=
  balance_nonneg_invariant accA 5 0 (by norm_num [accA])

/-- A savings account restored from a snapshot with a negative balance;
the one situation in which the current policies produce a negative
accrual, so that the internal deposit inside apply_interest fails. -/
def negAcct : Account := ⟨"N1", "Nina", "savings", -100, []⟩

lemma calc_savings_neg100 :
    calculate_interest negAcct.account_type negAcct.balance = -2 := by
  show calculate_interest "savings" (-100 : ℚ) = -2
  simp only [calculate_interest, interest_strategy]
  rw [if_pos (by decide)]
  simp only [SavingsInterest.calculate_interest]
  norm_num

/-- C5 counterexample: on a savings account with balance -100 the policy
accrual is -2, the internal deposit of -2 would fail (and indeed the
record is not applied), yet apply_interest returns -2 rather than the 0
the claim demands. -/
theorem apply_interest_returns_accrual_not_zero :
    (negAcct.deposit (calculate_interest negAcct.account_type
      negAcct.balance) 0).1 = false ∧
    (negAcct.apply_interest 0).2 = negAcct ∧
    (negAcct.apply_interest 0).1 = -2 ∧
    (negAcct.apply_interest 0).1 ≠ 0 := by
  have hc : calculate_interest negAcct.account_type negAcct.balance = -2 :=
    calc_savings_neg100
  have hdep : negAcct.deposit (-2) 0 = (false, negAcct) :=
    deposit_nonpos 0 (by norm_num)
  have happ : negAcct.apply_interest 0 = (-2, negAcct) := by
    simp only [Account.apply_interest, hc]
    rw [if_pos (by norm_num), hdep]
  rw [hc, hdep, happ]
  norm_num

/-- C5 amended: apply_interest always returns the policy accrual computed
on the current balance; a positive accrual is deposited (appending one
DEPOSIT record), a zero accrual applies nothing, and a negative accrual's
internal deposit fails so the record is not applied — but the returned
value is then the negative accrual, not 0. -/
theorem apply_interest_spec (a : Account) (now : Nat) :
    (a.apply_interest now).1 = calculate_interest a.account_type a.balance ∧
    (calculate_interest a.account_type a.balance < 0 →
      (a.apply_interest now).2 = a) ∧
    (0 < calculate_interest a.account_type a.balance →
      (a.apply_interest now).2 =
        { a with
            balance := a.balance +
              calculate_interest a.account_type a.balance
            transaction_history := a.transaction_history ++
              [⟨"DEPOSIT", calculate_interest a.account_type a.balance,
                now⟩] }) ∧
    (calculate_interest a.account_type a.balance = 0 →
      (a.apply_interest now).2 = a) := by
  refine ⟨?_, ?_, ?_, ?_⟩
  · simp only [Account.apply_interest]
    split_ifs <;> rfl
  · intro h
    simp only [Account.apply_interest]
    rw [if_pos (ne_of_lt h), deposit_nonpos now h.le]
  · intro h
    simp only [Account.apply_interest]
    rw [if_pos (ne_of_gt h), deposit_pos now h]
  · intro h
    simp only [Account.apply_interest]
    rw [if_neg (by simp [h])]

theorem apply_interest_spec_witness :
    (negAcct.apply_interest 0).1 =
      calculate_interest negAcct.account_type negAcct.balance ∧
    (negAcct.apply_interest 0).2 = negAcct := by
  refine ⟨(apply_interest_spec negAcct 0).1,
    (apply_interest_spec negAcct 0).2.1 ?_⟩
  rw [calc_savings_neg100]
  norm_num

/-- Engine command record: the intent of one operation, holding the id(s)
of the targeted account(s) and the amount. -/
inductive TransactionCommand where
  | depositCmd (account_id : String) (amount : ℚ)
  | withdrawCmd (account_id : String) (amount : ℚ)
  | transferCmd (from_id to_id : String) (amount : ℚ)
deriving DecidableEq, Repr

/-- Look up an account by id in the id-keyed, insertion-ordered map. -/
def getAccount (accounts : List Account) (id : String) : Option Account :=
  accounts.find? (fun a => a.account_id == id)

/-- Store an account under its id: replaces the entry with the same id in
place, appends when absent (id-keyed insertion-ordered map semantics). -/
def add_account (a : Account) : List Account → List Account
  | [] => [a]
  | b :: rest =>
    if b.account_id = a.account_id then a :: rest
    else b :: add_account a rest

/-- Deposit into the account stored under an id, writing the mutated
account back in place on success. -/
def accDeposit (accounts : List Account) (id : String) (amount : ℚ)
    (now : Nat) : Bool × List Account :=
  match getAccount accounts id with
  | none => (false, accounts)
  | some a =>
    match a.deposit amount now with
    | (true, a2) => (true, add_account a2 accounts)
    | (false, _) => (false, accounts)

/-- Withdraw from the account stored under an id, writing the mutated
account back in place on success. -/
def accWithdraw (accounts : List Account) (id : String) (amount : ℚ)
    (now : Nat) : Bool × List Account :=
  match getAccount accounts id with
  | none => (false, accounts)
  | some a =>
    match a.withdraw amount now with
    | (true, a2) => (true, add_account a2 accounts)
    | (false, _) => (false, accounts)

/-- Running a command forward over the account map. -/
def TransactionCommand.execute :
    TransactionCommand → List Account → Nat → Bool × List Account
  | .depositCmd id amt, accounts, now => accDeposit accounts id amt now
  | .withdrawCmd id amt, accounts, now => accWithdraw accounts id amt now
  | .transferCmd f t amt, accounts, now =>
    match accWithdraw accounts f amt now with
    | (true, accounts2) => accDeposit accounts2 t amt now
    | (false, accounts2) => (false, accounts2)

/-- Running a command's compensation over the account map. -/
def TransactionCommand.undo :
    TransactionCommand → List Account → Nat → Bool × List Account
  | .depositCmd id amt, accounts, now => accWithdraw accounts id amt now
  | .withdrawCmd id amt, accounts, now => accDeposit accounts id amt now
  | .transferCmd f t amt, accounts, now =>
    match accWithdraw accounts t amt now with
    | (true, accounts2) => accDeposit accounts2 f amt now
    | (false, accounts2) => (false, accounts2)

/-- Engine state: the account map plus the undo stack (head is the most
recently pushed command). -/
structure InteractiveBankSystem where
  accounts : List Account
  undo_stack : List TransactionCommand
deriving DecidableEq, Repr

/-- Engine deposit entry point: on command success push it; otherwise
leave the state untouched. -/
def InteractiveBankSystem.deposit (s : InteractiveBankSystem) (id : String)
    (amount : ℚ) (now : Nat) : InteractiveBankSystem × Bool :=
  match getAccount s.accounts id with
  | none => (s, false)
  | some a =>
    match a.deposit amount now with
    | (true, a2) =>
      (⟨add_account a2 s.accounts,
        TransactionCommand.depositCmd id amount :: s.undo_stack⟩, true)
    | (false, _) => (s, false)

/-- Engine withdraw entry point: on command success push it; otherwise
leave the state untouched. -/
def InteractiveBankSystem.withdraw (s : InteractiveBankSystem) (id : String)
    (amount : ℚ) (now : Nat) : InteractiveBankSystem × Bool :=
  match getAccount s.accounts id with
  | none => (s, false)
  | some a =>
    match a.withdraw amount now with
    | (true, a2) =>
      (⟨add_account a2 s.accounts,
        TransactionCommand.withdrawCmd id amount :: s.undo_stack⟩, true)
    | (false, _) => (s, false)

/-- Engine transfer entry point: requires both accounts to exist, runs the
transfer command, and pushes it only on success. -/
def InteractiveBankSystem.transfer (s : InteractiveBankSystem)
    (from_id to_id : String) (amount : ℚ) (now : Nat) :
    InteractiveBankSystem × Bool :=
  match getAccount s.accounts from_id, getAccount s.accounts to_id with
  | some _, some _ =>
    match (TransactionCommand.transferCmd from_id to_id amount).execute
        s.accounts now with
    | (true, accounts2) =>
      (⟨accounts2,
        TransactionCommand.transferCmd from_id to_id amount ::
          s.undo_stack⟩, true)
    | (false, accounts2) => (⟨accounts2, s.undo_stack⟩, false)
  | _, _ => (s, false)

/-- Outcome reported by the engine's undo entry point. -/
inductive UndoOutcome where
  | nothingToUndo
  | undone
  | failed
deriving DecidableEq, Repr

/-- Engine undo entry point: with an empty stack it reports that there is
nothing to undo and changes no state; otherwise it pops the most recently
pushed command and runs its compensation, consuming the command whether or
not that compensation succeeds. -/
def InteractiveBankSystem.undo_transaction (s : InteractiveBankSystem)
    (now : Nat) : InteractiveBankSystem × UndoOutcome :=
  match s.undo_stack with
  | [] => (s, .nothingToUndo)
  | c :: rest =>
    (⟨(c.undo s.accounts now).2, rest⟩,
     if (c.undo s.accounts now).1 then .undone else .failed)

/-- C6: the engine's undo is LIFO over successfully executed commands.
Each successful operation pushes its command on top of the stack and a
failed one pushes nothing; popping applies the popped command's undo and
consumes it whether or not that undo succeeds (never re-pushing it), so
with stack c3, c2, c1 three successive undo calls apply c3, then c2, then
c1; and undo on an empty stack reports nothing to undo and changes no
state. -/
theorem undo_stack_lifo :
    (∀ (s s2 : InteractiveBankSystem) (id : String) (x : ℚ) (now : Nat),
      s.deposit id x now = (s2, true) →
      s2.undo_stack = TransactionCommand.depositCmd id x :: s.undo_stack) ∧
    (∀ (s s2 : InteractiveBankSystem) (id : String) (x : ℚ) (now : Nat),
      s.withdraw id x now = (s2, true) →
      s2.undo_stack = TransactionCommand.withdrawCmd id x :: s.undo_stack) ∧
    (∀ (s s2 : InteractiveBankSystem) (f t : String) (x : ℚ) (now : Nat),
      s.transfer f t x now = (s2, true) →
      s2.undo_stack = TransactionCommand.transferCmd f t x ::
        s.undo_stack) ∧
    (∀ (s s2 : InteractiveBankSystem) (id : String) (x : ℚ) (now : Nat),
      s.deposit id x now = (s2, false) → s2.undo_stack = s.undo_stack) ∧
    (∀ (s s2 : InteractiveBankSystem) (id : String) (x : ℚ) (now : Nat),
      s.withdraw id x now = (s2, false) → s2.undo_stack = s.undo_stack) ∧
    (∀ (s s2 : InteractiveBankSystem) (f t : String) (x : ℚ) (now : Nat),
      s.transfer f t x now = (s2, false) → s2.undo_stack = s.undo_stack) ∧
    (∀ (s : InteractiveBankSystem) (now : Nat) (c : TransactionCommand)
        (rest : List TransactionCommand),
      s.undo_stack = c :: rest →
      (s.undo_transaction now).1.undo_stack = rest ∧
      (s.undo_transaction now).1.accounts = (c.undo s.accounts now).2) ∧
    (∀ (s : InteractiveBankSystem) (now : Nat)
        (c3 c2 c1 : TransactionCommand) (rest : List TransactionCommand),
      s.undo_stack = c3 :: c2 :: c1 :: rest →
      (s.undo_transaction now).1.accounts = (c3.undo s.accounts now).2 ∧
      ((s.undo_transaction now).1.undo_transaction now).1.accounts =
        (c2.undo (c3.undo s.accounts now).2 now).2 ∧
      (((s.undo_transaction now).1.undo_transaction
          now).1.undo_transaction now).1.accounts =
        (c1.undo (c2.undo (c3.undo s.accounts now).2 now).2 now).2 ∧
      (((s.undo_transaction now).1.undo_transaction
          now).1.undo_transaction now).1.undo_stack = rest) ∧
    (∀ (s : InteractiveBankSystem) (now : Nat),
      s.undo_stack = [] →
      s.undo_transaction now = (s, UndoOutcome.nothingToUndo)) := by
  refine ⟨?_, ?_, ?_, ?_, ?_, ?_, ?_, ?_, ?_⟩
  · intro s s2 id x now h
    simp only [InteractiveBankSystem.deposit] at h
    split at h
    · simp at h
    · split at h
      · injection h with h1 h2
        rw [← h1]
      · simp at h
  · intro s s2 id x now h
    simp only [InteractiveBankSystem.withdraw] at h
    split at h
    · simp at h
    · split at h
      · injection h with h1 h2
        rw [← h1]
      · simp at h
  · intro s s2 f t x now h
    simp only [InteractiveBankSystem.transfer] at h
    split at h
    · split at h
      · injection h with h1 h2
        rw [← h1]
      · simp at h
    · simp at h
  · intro s s2 id x now h
    simp only [InteractiveBankSystem.deposit] at h
    split at h
    · injection h with h1 h2
      rw [← h1]
    · split at h
      · simp at h
      · injection h with h1 h2
        rw [← h1]
  · intro s s2 id x now h
    simp only [InteractiveBankSystem.withdraw] at h
    split at h
    · injection h with h1 h2
      rw [← h1]
    · split at h
      · simp at h
      · injection h with h1 h2
        rw [← h1]
  · intro s s2 f t x now h
    simp only [InteractiveBankSystem.transfer] at h
    split at h
    · split at h
      · simp at h
      · injection h with h1 h2
        rw [← h1]
    · injection h with h1 h2
      rw [← h1]
  · intro s now c rest h
    obtain ⟨accounts, stack⟩ := s
    simp only at h
    subst h
    simp [InteractiveBankSystem.undo_transaction]
  · intro s now c3 c2 c1 rest h
    obtain ⟨accounts, stack⟩ := s
    simp only at h
    subst h
    simp [InteractiveBankSystem.undo_transaction]
  · intro s now h
    obtain ⟨accounts, stack⟩ := s
    simp only at h
    subst h
    simp [InteractiveBankSystem.undo_transaction]

/-- Engine state with no executed commands. -/
def sys0 : InteractiveBankSystem := ⟨[accA, accB], []⟩

/-- Engine state with one executed deposit command on the stack. -/
def sysC : InteractiveBankSystem := ⟨[accA, accB], [.depositCmd "A1" 5]⟩

theorem undo_stack_lifo_witness :
    ((sysC.undo_transaction 0).1.undo_stack = [] ∧
     (sysC.undo_transaction 0).1.accounts =
       ((TransactionCommand.depositCmd "A1" 5).undo sysC.accounts 0).2) ∧
    sys0.undo_transaction 0 = (sys0, UndoOutcome.nothingToUndo) := by
  exact ⟨undo_stack_lifo.2.2.2.2.2.2.1 sysC 0
      (TransactionCommand.depositCmd "A1" 5) [] rfl,
    undo_stack_lifo.2.2.2.2.2.2.2.2 sys0 0 rfl⟩

/-- Raw persisted transaction record; an absent key is modelled as none. -/
structure RawTransaction where
  type : Option String
  amount : Option ℚ
  timestamp : Option Nat
deriving DecidableEq, Repr

/-- Raw persisted account record; an absent key is modelled as none. -/
structure RawAccount where
  account_id : Option String
  owner : Option String
  account_type : Option String
  balance : Option ℚ
  transactions : Option (List RawTransaction)
deriving DecidableEq, Repr

/-- Raw persisted document; an absent accounts key is modelled as none. -/
structure RawDoc where
  accounts : Option (List RawAccount)
deriving DecidableEq, Repr

/-- The snapshot file as the loader sees it: absent, unparseable, or a
parsed document. -/
inductive SnapshotFile where
  | missingFile
  | malformed
  | parsed (doc : RawDoc)
deriving DecidableEq, Repr

/-- Serialisation of one history entry: every key written. -/
def saveTransaction (t : Transaction) : RawTransaction :=
  ⟨some t.type, some t.amount, some t.timestamp⟩

/-- Serialisation of one account: every key written, history in order. -/
def saveAccount (a : Account) : RawAccount :=
  ⟨some a.account_id, some a.owner, some a.account_type, some a.balance,
   some (a.transaction_history.map saveTransaction)⟩

/-- Serialisation of the full ledger in map order. -/
def save_data (accounts : List Account) : RawDoc :=
  ⟨some (accounts.map saveAccount)⟩

/-- Reading one transaction record; a missing key aborts the load. -/
def loadTransaction (r : RawTransaction) : Option Transaction :=
  match r.type, r.amount, r.timestamp with
  | some ty, some amt, some ts => some ⟨ty, amt, ts⟩
  | _, _, _ => none

/-- Reading a transaction list; the first bad record aborts the load. -/
def loadTransactions : List RawTransaction → Option (List Transaction)
  | [] => some []
  | r :: rest =>
    match loadTransaction r with
    | none => none
    | some t =>
      match loadTransactions rest with
      | none => none
      | some ts => some (t :: ts)

/-- Reading one account record: id, owner and balance are required; the
kind defaults to savings when absent; the transaction list defaults to
empty when absent. -/
def loadAccount (r : RawAccount) : Option Account :=
  match r.account_id, r.owner, r.balance with
  | some id, some ow, some bal =>
    match loadTransactions (r.transactions.getD []) with
    | none => none
    | some txns => some ⟨id, ow, r.account_type.getD "savings", bal, txns⟩
  | _, _, _ => none

/-- Reading the account array; the first bad record aborts the load. -/
def loadAccounts : List RawAccount → Option (List Account)
  | [] => some []
  | r :: rest =>
    match loadAccount r with
    | none => none
    | some a =>
      match loadAccounts rest with
      | none => none
      | some rest2 => some (a :: rest2)

/-- Deserialisation of a snapshot: every failure mode — missing file,
malformed content, or a missing required field — logs a warning (the
Bool) and yields the empty account set; a good snapshot rebuilds the
id-keyed map in record order with no warning. -/
def load_data (file : SnapshotFile) : List Account × Bool :=
  match file with
  | .missingFile => ([], true)
  | .malformed => ([], true)
  | .parsed doc =>
    match doc.accounts with
    | none => ([], true)
    | some raws =>
      match loadAccounts raws with
      | none => ([], true)
      | some accts => (accts.foldl (fun m a => add_account a m) [], false)

lemma loadAccounts_none {raws : List RawAccount} {r : RawAccount}
    (hmem : r ∈ raws) (h : loadAccount r = none) :
    loadAccounts raws = none := by
  induction raws with
  | nil => cases hmem
  | cons head tail ih =>
    rcases List.mem_cons.mp hmem with rfl | hmem2
    · simp [loadAccounts, h]
    · simp only [loadAccounts, ih hmem2]
      cases hla : loadAccount head <;> simp

/-- C8: load of a missing file, of malformed content, of a document with
no accounts key, and of a document containing a record with a required
field missing are all handled identically — a warning is logged and the
account set comes back empty, never a fatal error; and a record whose
kind field is absent loads with the kind defaulted to savings. -/
theorem load_failure_spec :
    load_data .missingFile = ([], true) ∧
    load_data .malformed = ([], true) ∧
    (∀ doc, doc.accounts = none → load_data (.parsed doc) = ([], true)) ∧
    (∀ r : RawAccount,
      r.account_id = none ∨ r.owner = none ∨ r.balance = none →
      loadAccount r = none) ∧
    (∀ doc raws (r : RawAccount), doc.accounts = some raws → r ∈ raws →
      loadAccount r = none → load_data (.parsed doc) = ([], true)) ∧
    (∀ (r : RawAccount) (a : Account), loadAccount r = some a →
      r.account_type = none → a.account_type = "savings") := by
  refine ⟨rfl, rfl, ?_, ?_, ?_, ?_⟩
  · intro doc h
    simp [load_data, h]
  · intro r h
    obtain ⟨oid, oow, oatype, obal, otx⟩ := r
    rcases oid with _ | id <;> rcases oow with _ | ow <;>
      rcases obal with _ | bal <;> simp_all [loadAccount]
  · intro doc raws r hdoc hmem hnone
    simp [load_data, hdoc, loadAccounts_none hmem hnone]
  · intro r a h hk
    obtain ⟨oid, oow, oatype, obal, otx⟩ := r
    simp only at hk
    subst hk
    cases oid with
    | none => simp [loadAccount] at h
    | some id =>
      cases oow with
      | none => simp [loadAccount] at h
      | some ow =>
        cases obal with
        | none => simp [loadAccount] at h
        | some bal =>
          simp only [loadAccount] at h
          cases htx : loadTransactions (otx.getD []) with
          | none =>
            rw [htx] at h
            simp at h
          | some txns =>
            rw [htx] at h
            simp only [Option.some.injEq] at h
            rw [← h]
            rfl

/-- A raw account record with no kind key. -/
def rawNoKind : RawAccount := ⟨some "A1", some "Alice", none, some 10, none⟩

theorem load_failure_spec_witness :
    Account.account_type ⟨"A1", "Alice", "savings", 10, []⟩ = "savings" ∧
    load_data (.parsed ⟨none⟩) = ([], true) ∧
    load_data (.parsed ⟨some [⟨none, some "x", none, some 1, none⟩]⟩) =
      ([], true) := by
  refine ⟨load_failure_spec.2.2.2.2.2 rawNoKind _ rfl rfl,
    load_failure_spec.2.2.1 ⟨none⟩ rfl,
    load_failure_spec.2.2.2.2.1 ⟨some [⟨none, some "x", none, some 1, none⟩]⟩
      [⟨none, some "x", none, some 1, none⟩]
      ⟨none, some "x", none, some 1, none⟩ rfl (by simp) ?_⟩
  exact load_failure_spec.2.2.2.1 ⟨none, some "x", none, some 1, none⟩
    (Or.inl rfl)

lemma loadTransaction_save (t : Transaction) :
    loadTransaction (saveTransaction t) = some t := rfl

lemma loadTransactions_save (ts : List Transaction) :
    loadTransactions (ts.map saveTransaction) = some ts := by
  induction ts with
  | nil => rfl
  | cons t rest ih =>
    simp [loadTransactions, loadTransaction_save, ih]

lemma loadAccount_save (a : Account) :
    loadAccount (saveAccount a) = some a := by
  simp [loadAccount, saveAccount, loadTransactions_save]

lemma loadAccounts_save (l : List Account) :
    loadAccounts (l.map saveAccount) = some l := by
  induction l with
  | nil => rfl
  | cons a rest ih =>
    simp [loadAccounts, loadAccount_save, ih]

lemma add_account_fresh {a : Account} {acc : List Account}
    (h : a.account_id ∉ acc.map Account.account_id) :
    add_account a acc = acc ++ [a] := by
  induction acc with
  | nil => rfl
  | cons b rest ih =>
    simp only [List.map_cons, List.mem_cons] at h
    push_neg at h
    simp only [add_account]
    rw [if_neg (fun hc => h.1 hc.symm), ih h.2]
    rfl

lemma foldl_add_account (l : List Account) :
    ∀ acc : List Account, ((acc ++ l).map Account.account_id).Nodup →
      l.foldl (fun m a => add_account a m) acc = acc ++ l := by
  induction l with
  | nil =>
    intro acc _
    simp
  | cons a rest ih =>
    intro acc h
    have hmap : (acc.map Account.account_id ++
        a.account_id :: rest.map Account.account_id).Nodup := by
      simpa using h
    have hparts := List.nodup_append.mp hmap
    have hfresh : a.account_id ∉ acc.map Account.account_id := by
      intro hmem
      exact hparts.2.2 hmem (List.mem_cons_self _ _)
    simp only [List.foldl_cons]
    rw [add_account_fresh hfresh,
      ih (acc ++ [a]) (by simpa [List.append_assoc] using h)]
    simp

/-- C9: saving the ledger and loading the result reproduces the ledger
exactly — same ids, owners, kinds, balances and transaction sequences in
the original order — with no warning, given the map's ids are distinct. -/
theorem save_load_roundtrip (accounts : List Account)
    (h : (accounts.map Account.account_id).Nodup) :
    load_data (.parsed (save_data accounts)) = (accounts, false) := by
  simp only [load_data, save_data, loadAccounts_save]
  rw [foldl_add_account accounts [] (by simpa using h)]
  simp

theorem save_load_roundtrip_witness :
    load_data (.parsed (save_data [accA, accB])) = ([accA, accB], false) :=
  save_load_roundtrip [accA, accB] (by simp [accA, accB])
